import Mathlib

/-!
Verification of the xgrammar bridging layer (Sources/Cxgrammar/bridging.cc and
swift_shims.cc) and of the engine contracts the layer forwards to, as stated by
the repository specification.  The bridging code under src/ is embedded
directly; the engine library behind it (xgrammar::Grammar, GrammarMatcher,
TokenizerInfo, GetBitmaskSize) is not part of this repository, so where a
property is decided by engine behaviour the engine operation is modelled from
the specification and the model's doc comment says so.

Modelling conventions: a C pointer is an `Option` (none = null); the array a
non-null pointer points to is carried as the `List` of its elements; `int32_t`
indices and counts are `Int`; a mutable output buffer is passed in and the
contents after the call are returned.
-/

/-- The Swift-facing error-kind enumeration, from bridging.h lines 33-41. -/
inductive xgrammar_error_kind where
  | error_none
  | deserialize_version
  | deserialize_format
  | invalid_json
  | invalid_structural_tag
  | invalid_json_schema
  | unknown
  deriving DecidableEq, Repr

/-- Embedding of the C bridge `xgrammar_matcher_fill_next_token_bitmask`
(bridging.cc lines 374-390).  The matcher handle and the buffer pointer are
`Option`s (none = null); the engine call `matcher->obj.FillNextTokenBitmask`
is the parameter `fill`, taking the matcher value, the buffer contents, the
word count, the batch index and the debug flag, and returning the boolean
result together with the buffer contents after the call (the C code always
passes `false` for the debug flag).  The DLTensor the C code builds around the
buffer carries exactly the buffer pointer and the word count, which is what
`fill` receives.  Result: the returned bool and the buffer contents after the
call. -/
def xgrammar_matcher_fill_next_token_bitmask {M : Type}
    (fill : M → List Int → Int → Int → Bool → Bool × List Int)
    (matcher : Option M) (bitmask_data : Option (List Int))
    (bitmask_count : Int) (index : Int) : Bool × Option (List Int) :=
  match matcher, bitmask_data with
  | some m, some buf =>
      if bitmask_count ≤ 0 then (false, some buf)
      else
        let r := fill m buf bitmask_count index false
        (r.1, some r.2)
  | _, _ => (false, bitmask_data)

/-- Embedding of the Swift shim `xgrammar::swift_api::FillNextTokenBitmask`
(swift_shims.cc lines 25-47).  Same guard and same DLTensor construction as the
C bridge, except that the caller-supplied `debug_print` flag is forwarded to
the engine call instead of a hard-coded `false`. -/
def swift_api_FillNextTokenBitmask {M : Type}
    (fill : M → List Int → Int → Int → Bool → Bool × List Int)
    (matcher : Option M) (bitmask_data : Option (List Int))
    (bitmask_count : Int) (index : Int) (debug_print : Bool) : Bool × Option (List Int) :=
  match matcher, bitmask_data with
  | some m, some buf =>
      if bitmask_count ≤ 0 then (false, some buf)
      else
        let r := fill m buf bitmask_count index debug_print
        (r.1, some r.2)
  | _, _ => (false, bitmask_data)

/-- Embedding of `xgrammar_grammar_create_from_ebnf` (bridging.cc lines
122-126): a null `root_rule` pointer (modelled as none) is replaced by the
default name "root" before the engine call; `Grammar::FromEBNF` itself is
engine-side and abstracted as the parameter `fromEBNF`. -/
def xgrammar_grammar_create_from_ebnf {G : Type} (fromEBNF : String → String → G)
    (ebnf : String) (root_rule : Option String) : G :=
  fromEBNF ebnf (match root_rule with | some r => r | none => "root")

/-- Modelled from the spec: `xgrammar::GetBitmaskSize`, the engine function
behind `xgrammar_get_bitmask_size` (bridging.cc lines 549-551); the engine
library is not under src/.  Spec section 4.4 and 6: the required bitmask
capacity is ceil(vocab_size / 32) 32-bit words, computed here by the usual
rounding-up integer division. -/
def GetBitmaskSize (vocab_size : Nat) : Nat :=
  (vocab_size + 31) / 32

/-- Embedding of `xgrammar_get_bitmask_size` (bridging.cc lines 549-551): a
direct forward to the engine's `GetBitmaskSize`.  Non-negative `int32_t`
inputs are modelled as `Nat`. -/
def xgrammar_get_bitmask_size (vocab_size : Nat) : Nat :=
  GetBitmaskSize vocab_size

/-- The facet of `xgrammar::TokenizerInfo` the index accessors of the bridging
layer read: the decoded vocabulary and the stop/special token-id arrays
returned by `GetDecodedVocab`, `GetStopTokenIds` and `GetSpecialTokenIds`
(the full engine type is not under src/ and its other fields are not touched
by these accessors). -/
structure TokenizerInfo where
  decoded_vocab : List String
  stop_token_ids : List Int
  special_token_ids : List Int
  deriving DecidableEq, Repr

/-- Embedding of `xgrammar_tokenizer_info_decoded_vocab_at` (bridging.cc lines
515-519, identical guard in swift_shims.cc lines 230-236): an index outside
`[0, count)` yields the empty string, an index inside yields the element at
that position. -/
def xgrammar_tokenizer_info_decoded_vocab_at (info : TokenizerInfo) (index : Int) : String :=
  if index < 0 ∨ (info.decoded_vocab.length : Int) ≤ index then ""
  else info.decoded_vocab.getD index.toNat ""

/-- Embedding of `xgrammar_tokenizer_info_stop_token_id_at` (bridging.cc lines
525-531, identical guard in swift_shims.cc lines 242-248). -/
def xgrammar_tokenizer_info_stop_token_id_at (info : TokenizerInfo) (index : Int) : Int :=
  if index < 0 ∨ (info.stop_token_ids.length : Int) ≤ index then 0
  else info.stop_token_ids.getD index.toNat 0

/-- Embedding of `xgrammar_tokenizer_info_special_token_id_at` (bridging.cc
lines 537-543, identical guard in swift_shims.cc lines 254-260). -/
def xgrammar_tokenizer_info_special_token_id_at (info : TokenizerInfo) (index : Int) : Int :=
  if index < 0 ∨ (info.special_token_ids.length : Int) ≤ index then 0
  else info.special_token_ids.getD index.toNat 0

/-- Embedding of the optional stop-token-override marshalling of
`xgrammar_matcher_create` (bridging.cc lines 351-358, identical logic in
`CreateGrammarMatcherFromArray`, swift_shims.cc lines 196-203): with the has
flag clear the engine receives the absent optional (use the default); with the
flag set, a null array pointer or a non-positive count produce the explicit
empty override, and otherwise the first `count` pointed-to elements. -/
def matcher_override_stop_tokens (has_override_stop_tokens : Bool)
    (override_stop_tokens : Option (List Int)) (override_stop_token_count : Int) :
    Option (List Int) :=
  if has_override_stop_tokens then
    match override_stop_tokens with
    | some arr =>
        if 0 < override_stop_token_count then some (arr.take override_stop_token_count.toNat)
        else some []
    | none => some []
  else none

/-- Embedding of the optional stop-token-id marshalling of
`xgrammar_tokenizer_info_create` (bridging.cc lines 440-447, identical logic
in `CreateTokenizerInfoFromArray`, swift_shims.cc lines 176-183): the same
shape as the matcher override above. -/
def tokenizer_stop_token_ids_opt (has_stop_token_ids : Bool)
    (stop_token_ids : Option (List Int)) (stop_token_count : Int) :
    Option (List Int) :=
  if has_stop_token_ids then
    match stop_token_ids with
    | some arr =>
        if 0 < stop_token_count then some (arr.take stop_token_count.toNat)
        else some []
    | none => some []
  else none

/-- Modelled from the spec (sections 3 and 4.1): a grammar seen through its
language, the facet the Union/Concat contract speaks about — a decidable
acceptance predicate on strings over an alphabet.  `Grammar::Union` and
`Grammar::Concat` live in the engine library, not under src/; the src
marshallers (`GrammarUnionFromArray` / `GrammarConcatFromArray`,
swift_shims.cc lines 210-224) pass the input grammars through unchanged. -/
abbrev GrammarLang (α : Type) : Type := List α → Bool

/-- Modelled from the spec (section 4.1): `Grammar::Union` — the grammar whose
language is the set union of the inputs' languages; the empty union rejects
everything, since an empty union has no valid derivation. -/
def GrammarUnion {α : Type} (gs : List (GrammarLang α)) : GrammarLang α :=
  fun s => gs.any fun g => g s

/-- Modelled from the spec (section 4.1): `Grammar::Concat` — the grammar
whose language is the ordered concatenation of the inputs' languages; the
empty concatenation accepts only the empty string.  A string is accepted by
`g :: gs` when some split lets `g` accept the front part and the rest of the
list accept the back part. -/
def GrammarConcat {α : Type} : List (GrammarLang α) → GrammarLang α
  | [] => fun s => s.isEmpty
  | g :: gs => fun s =>
      (List.range (s.length + 1)).any fun i => g (s.take i) && GrammarConcat gs (s.drop i)

/-- Modelled from the spec (section 3): a grammar as the serialization claims
see it — an immutable value whose canonical `ToString` rendering is its
observable content (the rule structure itself lives in the engine, not under
src/). -/
structure Grammar where
  rendering : String
  deriving DecidableEq, Repr

/-- Modelled from the spec (section 4.1): the canonical textual rendering,
stable across calls. -/
def Grammar.ToString (g : Grammar) : String := g.rendering

/-- Modelled from the spec (section 6): the serialization format version the
engine currently writes. -/
def currentSerializationVersion : Nat := 1

/-- Modelled from the spec: `xgrammar::SerializationError` (exception.h, not
under src/): the variant of the three deserialization failure shapes, each
carrying a human-readable message. -/
inductive SerializationError where
  | deserializeVersionError (msg : String)
  | deserializeFormatError (msg : String)
  | invalidJSONError (msg : String)
  deriving DecidableEq, Repr

/-- The message of a serialization error (models `err.what()`). -/
def serialization_error_message : SerializationError → String
  | .deserializeVersionError m => m
  | .deserializeFormatError m => m
  | .invalidJSONError m => m

/-- Embedding of `error_kind_from_serialization` (bridging.cc lines 66-73):
the if-chain over the variant alternatives; its UNKNOWN fallback is
unreachable because the variant has exactly these three alternatives. -/
def error_kind_from_serialization : SerializationError → xgrammar_error_kind
  | .deserializeVersionError _ => .deserialize_version
  | .deserializeFormatError _ => .deserialize_format
  | .invalidJSONError _ => .invalid_json

/-- Modelled from the spec (section 6): what the deserializer can see in an
input string — text that is not JSON at all, or a JSON document carrying the
embedded format version and either a well-formed grammar payload or a
structurally malformed one (`none`). -/
inductive SerializedGrammarDoc where
  | notJSON (text : String)
  | jsonDoc (version : Nat) (payload : Option Grammar)
  deriving DecidableEq, Repr

/-- Modelled from the spec (section 4.1): `Grammar::SerializeJSON` — a JSON
document of the current format version whose payload carries the grammar
losslessly. -/
def Grammar.SerializeJSON (g : Grammar) : SerializedGrammarDoc :=
  .jsonDoc currentSerializationVersion (some g)

/-- Modelled from the spec (sections 4.1 and 6): `Grammar::DeserializeJSON` —
rejects non-JSON input with InvalidJSONError, an unsupported embedded format
version with DeserializeVersionError, and a structurally malformed payload of
the supported version with DeserializeFormatError; otherwise yields the
grammar. -/
def Grammar.DeserializeJSON : SerializedGrammarDoc → Grammar ⊕ SerializationError
  | .notJSON _ => .inr (.invalidJSONError "input is not valid JSON")
  | .jsonDoc version payload =>
      if version ≠ currentSerializationVersion then
        .inr (.deserializeVersionError "unsupported serialization version")
      else
        match payload with
        | none => .inr (.deserializeFormatError "malformed serialized grammar")
        | some g => .inl g

/-- What `xgrammar_grammar_create_from_serialized_json` hands back to the
caller: the grammar handle (none = null) and the two out-parameters. -/
structure FromSerializedJSONOutcome where
  grammar : Option Grammar
  error_kind : xgrammar_error_kind
  error_message : Option String
  deriving DecidableEq, Repr

/-- Embedding of `xgrammar_grammar_create_from_serialized_json` (bridging.cc
lines 179-192): on success the grammar handle with kind NONE; on failure a
null handle, the kind from `error_kind_from_serialization`, and the error's
message. -/
def xgrammar_grammar_create_from_serialized_json (doc : SerializedGrammarDoc) :
    FromSerializedJSONOutcome :=
  match Grammar.DeserializeJSON doc with
  | .inl g => ⟨some g, .error_none, none⟩
  | .inr e => ⟨none, error_kind_from_serialization e, some (serialization_error_message e)⟩

/-- The left-brace character (code point 123). -/
def lbraceChar : Char := Char.ofNat 123

/-- The right-brace character (code point 125). -/
def rbraceChar : Char := Char.ofNat 125

/-- Modelled from the spec (section 4.1): whitespace skipping of the RFC 8259
JSON grammar used by the engine's JSON front end, which is not under src/. -/
def skipWs : List Char → List Char
  | [] => []
  | c :: cs => if c = ' ' ∨ c = '\t' ∨ c = '\n' ∨ c = '\r' then skipWs cs else c :: cs

/-- Modelled from the spec: the remainder of a JSON string literal after its
opening quote; yields the input after the closing quote, or none when the
literal is unterminated. -/
def parseStringRest : List Char → Option (List Char)
  | [] => none
  | c :: cs =>
      if c = '"' then some cs
      else if c = '\\' then
        match cs with
        | [] => none
        | _ :: cs2 => parseStringRest cs2
      else parseStringRest cs

/-- A character that may continue a JSON number. -/
def isNumberChar (c : Char) : Bool :=
  c.isDigit || c = '-' || c = '+' || c = '.' || c = 'e' || c = 'E'

/-- The input after a maximal run of number characters. -/
def dropNumberRun : List Char → List Char
  | [] => []
  | c :: cs => if isNumberChar c then dropNumberRun cs else c :: cs

/-- The input after the expected literal characters, or none on mismatch. -/
def stripExpectedChars : List Char → List Char → Option (List Char)
  | [], rest => some rest
  | _ :: _, [] => none
  | a :: ps, c :: cs => if c = a then stripExpectedChars ps cs else none

mutual

/-- Modelled from the spec (sections 4.1 and 7): recursive-descent recognizer
for an RFC 8259 JSON value, standing in for the engine's JSON parser (not
under src/); fuelled to make termination structural.  Yields the input after
the value, or none when no value starts here. -/
def parseJSONValue : Nat → List Char → Option (List Char)
  | 0, _ => none
  | Nat.succ fuel, cs =>
      match skipWs cs with
      | [] => none
      | c :: rest =>
          if c = '"' then parseStringRest rest
          else if c = lbraceChar then parseJSONObjectBody fuel rest
          else if c = '[' then parseJSONArrayBody fuel rest
          else if c = 't' then stripExpectedChars ['r', 'u', 'e'] rest
          else if c = 'f' then stripExpectedChars ['a', 'l', 's', 'e'] rest
          else if c = 'n' then stripExpectedChars ['u', 'l', 'l'] rest
          else if c.isDigit ∨ c = '-' then some (dropNumberRun rest)
          else none

/-- The members of a JSON object, after its opening brace. -/
def parseJSONObjectBody : Nat → List Char → Option (List Char)
  | 0, _ => none
  | Nat.succ fuel, cs =>
      match skipWs cs with
      | [] => none
      | c :: rest =>
          if c = rbraceChar then some rest
          else if c = '"' then
            match parseStringRest rest with
            | none => none
            | some afterKey =>
                match skipWs afterKey with
                | ':' :: afterColon =>
                    match parseJSONValue fuel afterColon with
                    | none => none
                    | some afterVal =>
                        match skipWs afterVal with
                        | ',' :: afterComma => parseJSONObjectBody fuel afterComma
                        | c2 :: afterC2 => if c2 = rbraceChar then some afterC2 else none
                        | [] => none
                | _ => none
          else none

/-- The elements of a JSON array, after its opening bracket. -/
def parseJSONArrayBody : Nat → List Char → Option (List Char)
  | 0, _ => none
  | Nat.succ fuel, cs =>
      match skipWs cs with
      | [] => none
      | c :: rest =>
          if c = ']' then some rest
          else
            match parseJSONValue fuel (c :: rest) with
            | none => none
            | some afterVal =>
                match skipWs afterVal with
                | ',' :: afterComma => parseJSONArrayBody fuel afterComma
                | c2 :: afterC2 => if c2 = ']' then some afterC2 else none
                | [] => none

end

/-- Modelled from the spec (section 7): whether a string is valid JSON — a
single JSON value followed by nothing but whitespace. -/
def isJSON (s : String) : Bool :=
  match parseJSONValue (s.length + 1) s.data with
  | some rest => (skipWs rest).isEmpty
  | none => false

/-- Modelled from the spec: `xgrammar::StructuralTagError` (exception.h, not
under src/): the variant of exactly the three failure shapes of
`FromStructuralTag`, each carrying a human-readable message. -/
inductive StructuralTagError where
  | invalidJSONError (msg : String)
  | invalidJSONSchemaError (msg : String)
  | invalidStructuralTagError (msg : String)
  deriving DecidableEq, Repr

/-- The message of a structural-tag error (models `err.what()`). -/
def structural_tag_error_message : StructuralTagError → String
  | .invalidJSONError m => m
  | .invalidJSONSchemaError m => m
  | .invalidStructuralTagError m => m

/-- Embedding of `error_kind_from_structural_tag` (bridging.cc lines 75-82):
the if-chain over the variant alternatives; its UNKNOWN fallback is
unreachable because the variant has exactly these three alternatives. -/
def error_kind_from_structural_tag : StructuralTagError → xgrammar_error_kind
  | .invalidJSONError _ => .invalid_json
  | .invalidJSONSchemaError _ => .invalid_json_schema
  | .invalidStructuralTagError _ => .invalid_structural_tag

/-- Modelled from the spec (section 4.1): `Grammar::FromStructuralTag` (engine
library, not under src/).  Input that is not valid JSON fails with
InvalidJSONError; then the embedded schemas are checked
(InvalidJSONSchemaError) and the tag structure itself
(InvalidStructuralTagError); only these three failure shapes exist.  The two
engine-internal checks and the grammar construction carry no further spec
detail and are abstracted as parameters. -/
def FromStructuralTag (schemasOk tagsOk : String → Bool) (build : String → Grammar)
    (json : String) : Grammar ⊕ StructuralTagError :=
  if ¬ isJSON json then Sum.inr (.invalidJSONError json)
  else if ¬ schemasOk json then Sum.inr (.invalidJSONSchemaError json)
  else if ¬ tagsOk json then Sum.inr (.invalidStructuralTagError json)
  else Sum.inl (build json)

/-- What `xgrammar_grammar_create_from_structural_tag` hands back to the
caller: the grammar handle (none = null) and the two out-parameters. -/
structure StructuralTagOutcome where
  grammar : Option Grammar
  error_kind : xgrammar_error_kind
  error_message : Option String
  deriving DecidableEq, Repr

/-- Embedding of `xgrammar_grammar_create_from_structural_tag` (bridging.cc
lines 164-177): on success the grammar handle with kind NONE; on failure a
null handle, the kind from `error_kind_from_structural_tag`, and the error's
message. -/
def xgrammar_grammar_create_from_structural_tag
    (schemasOk tagsOk : String → Bool) (build : String → Grammar)
    (json : String) : StructuralTagOutcome :=
  match FromStructuralTag schemasOk tagsOk build json with
  | Sum.inl g => ⟨some g, .error_none, none⟩
  | Sum.inr e => ⟨none, error_kind_from_structural_tag e, some (structural_tag_error_message e)⟩

/-- Modelled from the spec (sections 3 and 4.4): the facet of a
CompiledGrammar the rollback law needs.  Per spec section 3 the matcher state
over a fixed compiled grammar is determined by the tokens consumed since
construction or reset, so the compiled grammar is modelled by how it judges
the next token given the consumed history and by the bitmask it emits at a
history (the engine's table-driven automaton is not under src/). -/
structure CompiledGrammarModel where
  acceptable : List Int → Int → Bool
  bitmask : List Int → List Int

/-- Modelled from the spec (section 3): the GrammarMatcher, the only mutable
entity: a consumed-token history over a fixed compiled grammar, with the
configured rollback horizon. -/
structure GrammarMatcherModel where
  compiled : CompiledGrammarModel
  max_rollback_tokens : Nat
  history : List Int

/-- Modelled from the spec (section 4.4): AcceptToken commits the token and
advances the automaton when the token is a valid continuation, and changes
nothing otherwise (none = returned false). -/
def GrammarMatcherModel.AcceptToken (m : GrammarMatcherModel) (t : Int) :
    Option GrammarMatcherModel :=
  if m.compiled.acceptable m.history t then
    some { m with history := m.history ++ [t] }
  else none

/-- Modelled from the spec (section 4.4): FillNextTokenBitmask emits the
bitmask the compiled grammar prescribes at the current automaton state. -/
def GrammarMatcherModel.FillNextTokenBitmask (m : GrammarMatcherModel) : List Int :=
  m.compiled.bitmask m.history

/-- Modelled from the spec (section 4.4): Rollback(n) undoes the last n
accepted tokens; its precondition fails (none) when n exceeds the configured
max_rollback_tokens or the number of tokens consumed since construction or
reset. -/
def GrammarMatcherModel.Rollback (m : GrammarMatcherModel) (n : Nat) :
    Option GrammarMatcherModel :=
  if n ≤ m.max_rollback_tokens ∧ n ≤ m.history.length then
    some { m with history := m.history.take (m.history.length - n) }
  else none

/-- Modelled from the spec (section 4.4): Reset returns to the initial state
with an empty consumption history over the same compiled grammar. -/
def GrammarMatcherModel.Reset (m : GrammarMatcherModel) : GrammarMatcherModel :=
  { m with history := [] }

/-- Accepting a sequence of tokens one at a time; none as soon as one is
rejected. -/
def acceptTokens : GrammarMatcherModel → List Int → Option GrammarMatcherModel
  | m, [] => some m
  | m, t :: ts =>
      match m.AcceptToken t with
      | some m2 => acceptTokens m2 ts
      | none => none

/-- A concrete compiled-grammar model for the rollback witness: every token is
acceptable and the bitmask exposes the history length. -/
def demoCompiled : CompiledGrammarModel where
  acceptable := fun _ _ => true
  bitmask := fun h => [Int.ofNat h.length]

/-- A fresh matcher over the witness grammar. -/
def demoFresh : GrammarMatcherModel where
  compiled := demoCompiled
  max_rollback_tokens := 4
  history := []

/-- The witness matcher after accepting tokens 5 and 7. -/
def demoAfter : GrammarMatcherModel where
  compiled := demoCompiled
  max_rollback_tokens := 4
  history := [5, 7]

/-- The witness matcher after rolling the two tokens back. -/
def demoRolled : GrammarMatcherModel where
  compiled := demoCompiled
  max_rollback_tokens := 4
  history := []

/-- C1: the bitmask-fill bridge returns false and leaves the buffer untouched
whenever the matcher handle is null, the buffer pointer is null, or the word
count is not positive; on every other input the guard is passed and the call
is forwarded to the engine matcher (with debug flag false). -/
theorem fill_next_token_bitmask_guard {M : Type}
    (fill : M → List Int → Int → Int → Bool → Bool × List Int)
    (matcher : Option M) (bitmask_data : Option (List Int))
    (bitmask_count index : Int) :
    ((matcher = none ∨ bitmask_data = none ∨ bitmask_count ≤ 0) →
      xgrammar_matcher_fill_next_token_bitmask fill matcher bitmask_data bitmask_count index
        = (false, bitmask_data)) ∧
    (∀ m buf, matcher = some m → bitmask_data = some buf → 0 < bitmask_count →
      xgrammar_matcher_fill_next_token_bitmask fill matcher bitmask_data bitmask_count index
        = ((fill m buf bitmask_count index false).1,
           some (fill m buf bitmask_count index false).2)) := by
  constructor
  · rintro (rfl | rfl | hc)
    · cases bitmask_data <;> rfl
    · cases matcher <;> rfl
    · cases matcher with
      | none => rfl
      | some m =>
        cases bitmask_data with
        | none => rfl
        | some buf =>
          simp only [xgrammar_matcher_fill_next_token_bitmask, if_pos hc]
  · rintro m buf rfl rfl hc
    simp only [xgrammar_matcher_fill_next_token_bitmask, if_neg (not_le.mpr hc)]

/-- C9: called with `debug_print = false`, the Swift shim
`swift_api::FillNextTokenBitmask` returns the same boolean and produces the
same buffer contents as the C bridge `xgrammar_matcher_fill_next_token_bitmask`
on every matcher, buffer, word count and batch index. -/
theorem fill_bitmask_c_swift_equiv {M : Type}
    (fill : M → List Int → Int → Int → Bool → Bool × List Int)
    (matcher : Option M) (bitmask_data : Option (List Int))
    (bitmask_count index : Int) :
    swift_api_FillNextTokenBitmask fill matcher bitmask_data bitmask_count index false
      = xgrammar_matcher_fill_next_token_bitmask fill matcher bitmask_data bitmask_count index := by
  cases matcher <;> cases bitmask_data <;> rfl

/-- C10: constructing a grammar from EBNF with a null root-rule name behaves
identically to constructing it with the root-rule name "root", for every
engine front end and every EBNF text. -/
theorem create_from_ebnf_null_root {G : Type} (fromEBNF : String → String → G)
    (ebnf : String) :
    xgrammar_grammar_create_from_ebnf fromEBNF ebnf none
      = xgrammar_grammar_create_from_ebnf fromEBNF ebnf (some "root") := rfl

/-- C2: for every non-negative vocab_size, `xgrammar_get_bitmask_size` equals
the ceiling of vocab_size / 32 — in particular at 0 and at exact multiples
of 32, which the universal quantifier covers. -/
theorem get_bitmask_size_eq_ceil (vocab_size : Nat) :
    (xgrammar_get_bitmask_size vocab_size : Int) = ⌈(vocab_size : ℚ) / 32⌉ := by
  have h := Nat.div_add_mod (vocab_size + 31) 32
  have hr : (vocab_size + 31) % 32 < 32 := Nat.mod_lt _ (by norm_num)
  have h1 : vocab_size ≤ 32 * ((vocab_size + 31) / 32) := by omega
  have h2 : 32 * ((vocab_size + 31) / 32) < vocab_size + 32 := by omega
  simp only [xgrammar_get_bitmask_size, GetBitmaskSize]
  rw [eq_comm, Int.ceil_eq_iff]
  constructor
  · rw [lt_div_iff₀ (by norm_num : (0 : ℚ) < 32)]
    have h2q : (32 : ℚ) * ((vocab_size + 31) / 32 : ℕ) < (vocab_size : ℚ) + 32 := by
      exact_mod_cast h2
    rw [Int.cast_natCast]
    linarith
  · rw [div_le_iff₀ (by norm_num : (0 : ℚ) < 32)]
    have h1q : (vocab_size : ℚ) ≤ 32 * ((vocab_size + 31) / 32 : ℕ) := by
      exact_mod_cast h1
    rw [Int.cast_natCast]
    linarith

/-- The bounds guard shared by the three index accessors, out-of-range side. -/
theorem accessor_guard_out {β : Type} (l : List β) (d : β) (index : Int)
    (h : index < 0 ∨ (l.length : Int) ≤ index) :
    (if index < 0 ∨ (l.length : Int) ≤ index then d else l.getD index.toNat d) = d :=
  if_pos h

/-- The bounds guard shared by the three index accessors, in-range side. -/
theorem accessor_guard_in {β : Type} (l : List β) (d : β) (i : Nat) (h : i < l.length) :
    (if (i : Int) < 0 ∨ (l.length : Int) ≤ (i : Int) then d else l.getD (Int.toNat i) d)
      = l.get ⟨i, h⟩ := by
  have hn : ¬ ((i : Int) < 0 ∨ (l.length : Int) ≤ (i : Int)) := by
    push_neg
    exact ⟨Int.natCast_nonneg i, by exact_mod_cast h⟩
  rw [if_neg hn, Int.toNat_natCast, List.getD_eq_getElem _ _ h]
  exact (List.get_eq_getElem l ⟨i, h⟩).symm

/-- C7: each TokenizerInfo index accessor returns the deterministic empty
string / zero on any index outside `[0, count)`, and the element at the index
on any index inside `[0, count)`. -/
theorem tokenizer_info_accessor_bounds (info : TokenizerInfo) :
    (∀ index : Int, (index < 0 ∨ (info.decoded_vocab.length : Int) ≤ index) →
        xgrammar_tokenizer_info_decoded_vocab_at info index = "") ∧
    (∀ (i : Nat) (h : i < info.decoded_vocab.length),
        xgrammar_tokenizer_info_decoded_vocab_at info (i : Int)
          = info.decoded_vocab.get ⟨i, h⟩) ∧
    (∀ index : Int, (index < 0 ∨ (info.stop_token_ids.length : Int) ≤ index) →
        xgrammar_tokenizer_info_stop_token_id_at info index = 0) ∧
    (∀ (i : Nat) (h : i < info.stop_token_ids.length),
        xgrammar_tokenizer_info_stop_token_id_at info (i : Int)
          = info.stop_token_ids.get ⟨i, h⟩) ∧
    (∀ index : Int, (index < 0 ∨ (info.special_token_ids.length : Int) ≤ index) →
        xgrammar_tokenizer_info_special_token_id_at info index = 0) ∧
    (∀ (i : Nat) (h : i < info.special_token_ids.length),
        xgrammar_tokenizer_info_special_token_id_at info (i : Int)
          = info.special_token_ids.get ⟨i, h⟩) := by
  refine ⟨fun index h => accessor_guard_out _ _ index h,
          fun i h => accessor_guard_in _ _ i h,
          fun index h => accessor_guard_out _ _ index h,
          fun i h => accessor_guard_in _ _ i h,
          fun index h => accessor_guard_out _ _ index h,
          fun i h => accessor_guard_in _ _ i h⟩

/-- C8: with the has flag clear both optional-stop-token constructions yield
the absent optional ("use default"); with the flag set, a null pointer or a
non-positive count yield the explicit empty override; and the two resulting
configurations are distinct. -/
theorem override_stop_tokens_semantics :
    (∀ ptr count, matcher_override_stop_tokens false ptr count = none) ∧
    (∀ arr count, count ≤ 0 → matcher_override_stop_tokens true (some arr) count = some []) ∧
    (∀ count, matcher_override_stop_tokens true none count = some []) ∧
    (∀ ptr c₁ c₂,
        matcher_override_stop_tokens false ptr c₁ ≠ matcher_override_stop_tokens true none c₂) ∧
    (∀ ptr count, tokenizer_stop_token_ids_opt false ptr count = none) ∧
    (∀ arr count, count ≤ 0 → tokenizer_stop_token_ids_opt true (some arr) count = some []) ∧
    (∀ count, tokenizer_stop_token_ids_opt true none count = some []) ∧
    (∀ ptr c₁ c₂,
        tokenizer_stop_token_ids_opt false ptr c₁ ≠ tokenizer_stop_token_ids_opt true none c₂) := by
  refine ⟨fun ptr count => rfl, ?_, fun count => rfl, fun ptr c₁ c₂ => by
            simp [matcher_override_stop_tokens],
          fun ptr count => rfl, ?_, fun count => rfl, fun ptr c₁ c₂ => by
            simp [tokenizer_stop_token_ids_opt]⟩
  · intro arr count hc
    simp [matcher_override_stop_tokens, not_lt.mpr hc]
  · intro arr count hc
    simp [tokenizer_stop_token_ids_opt, not_lt.mpr hc]

/-- A one-grammar concatenation accepts exactly what that grammar accepts. -/
theorem grammarConcat_singleton {α : Type} (g : GrammarLang α) (t : List α) :
    GrammarConcat [g] t = g t := by
  cases hgt : g t with
  | true =>
      apply List.any_eq_true.mpr
      refine ⟨t.length, List.mem_range.mpr (Nat.lt_succ_self _), ?_⟩
      simp [GrammarConcat, List.take_length, List.drop_length, hgt]
  | false =>
      apply List.any_eq_false.mpr
      intro i _
      by_cases hd : t.drop i = []
      · have hlen : t.length ≤ i := List.drop_eq_nil_iff.mp hd
        have htake : t.take i = t := List.take_of_length_le hlen
        simp [GrammarConcat, hd, htake, hgt]
      · simp [GrammarConcat, hd]

/-- C3: the union of two grammars accepts a string iff either input accepts
it; the concatenation of two grammars accepts a string iff some split lets the
first accept the front part and the second the back part; the empty
concatenation accepts only the empty string; and the empty union rejects
everything. -/
theorem union_concat_semantics {α : Type} (a b : GrammarLang α) (s : List α) :
    (GrammarUnion [a, b] s = (a s || b s)) ∧
    (GrammarConcat [a, b] s = true ↔
      ∃ s1 s2, s = s1 ++ s2 ∧ a s1 = true ∧ b s2 = true) ∧
    (GrammarConcat ([] : List (GrammarLang α)) s = true ↔ s = []) ∧
    (GrammarUnion ([] : List (GrammarLang α)) s = false) := by
  refine ⟨by simp [GrammarUnion], ?_, by simp [GrammarConcat], rfl⟩
  show (List.range (s.length + 1)).any
      (fun i => a (s.take i) && GrammarConcat [b] (s.drop i)) = true ↔ _
  constructor
  · intro h
    obtain ⟨i, _, hcond⟩ := List.any_eq_true.mp h
    rw [Bool.and_eq_true, grammarConcat_singleton] at hcond
    exact ⟨s.take i, s.drop i, (List.take_append_drop i s).symm, hcond.1, hcond.2⟩
  · rintro ⟨s1, s2, rfl, ha, hb⟩
    apply List.any_eq_true.mpr
    refine ⟨s1.length, List.mem_range.mpr ?_, ?_⟩
    · simp [Nat.lt_succ_iff]
    · rw [Bool.and_eq_true, grammarConcat_singleton, List.take_left s1 s2,
        List.drop_left s1 s2]
      exact ⟨ha, hb⟩

/-- C4: deserializing what `SerializeJSON` produced succeeds with a grammar of
identical `ToString` rendering, and the three failure shapes are reported with
the right kinds: DeserializeVersionError on an unsupported embedded version,
DeserializeFormatError on a structurally malformed payload of the supported
version, InvalidJSONError on input that is not JSON at all. -/
theorem serialize_roundtrip_error_kinds :
    (∀ g : Grammar, ∃ g2 : Grammar,
        Grammar.DeserializeJSON (Grammar.SerializeJSON g) = Sum.inl g2 ∧
        g2.ToString = g.ToString) ∧
    (∀ (v : Nat) (p : Option Grammar), v ≠ currentSerializationVersion →
        (xgrammar_grammar_create_from_serialized_json (.jsonDoc v p)).error_kind
          = xgrammar_error_kind.deserialize_version) ∧
    ((xgrammar_grammar_create_from_serialized_json
        (.jsonDoc currentSerializationVersion none)).error_kind
          = xgrammar_error_kind.deserialize_format) ∧
    (∀ t : String,
        (xgrammar_grammar_create_from_serialized_json (.notJSON t)).error_kind
          = xgrammar_error_kind.invalid_json) := by
  refine ⟨fun g => ⟨g, by simp [Grammar.SerializeJSON, Grammar.DeserializeJSON], rfl⟩,
          ?_, rfl, fun t => rfl⟩
  intro v p hv
  simp [xgrammar_grammar_create_from_serialized_json, Grammar.DeserializeJSON, hv,
    error_kind_from_serialization]

/-- C6: whenever `FromStructuralTag` fails, the bridge returns a null grammar
handle together with the error's message and a kind that is exactly one of
InvalidJSONError, InvalidJSONSchemaError, InvalidStructuralTagError; and on
the malformed input "\x7bnot json" the reported kind is InvalidJSONError, not
InvalidStructuralTagError. -/
theorem structural_tag_error_kinds :
    (∀ (schemasOk tagsOk : String → Bool) (build : String → Grammar) (json : String)
        (e : StructuralTagError),
        FromStructuralTag schemasOk tagsOk build json = Sum.inr e →
        (xgrammar_grammar_create_from_structural_tag schemasOk tagsOk build json).grammar
            = none ∧
        (xgrammar_grammar_create_from_structural_tag schemasOk tagsOk build json).error_message
            = some (structural_tag_error_message e) ∧
        ((xgrammar_grammar_create_from_structural_tag schemasOk tagsOk build json).error_kind
              = xgrammar_error_kind.invalid_json ∨
          (xgrammar_grammar_create_from_structural_tag schemasOk tagsOk build json).error_kind
              = xgrammar_error_kind.invalid_json_schema ∨
          (xgrammar_grammar_create_from_structural_tag schemasOk tagsOk build json).error_kind
              = xgrammar_error_kind.invalid_structural_tag)) ∧
    (∀ (schemasOk tagsOk : String → Bool) (build : String → Grammar),
        (xgrammar_grammar_create_from_structural_tag schemasOk tagsOk build
            "\x7bnot json").error_kind = xgrammar_error_kind.invalid_json) ∧
    (xgrammar_error_kind.invalid_json ≠ xgrammar_error_kind.invalid_structural_tag) := by
  refine ⟨?_, ?_, by decide⟩
  · intro schemasOk tagsOk build json e he
    refine ⟨by simp [xgrammar_grammar_create_from_structural_tag, he],
            by simp [xgrammar_grammar_create_from_structural_tag, he], ?_⟩
    simp only [xgrammar_grammar_create_from_structural_tag, he]
    cases e <;> simp [error_kind_from_structural_tag]
  · intro schemasOk tagsOk build
    have hj : isJSON "\x7bnot json" = false := by decide
    simp [xgrammar_grammar_create_from_structural_tag, FromStructuralTag, hj,
      error_kind_from_structural_tag]

/-- Accepting a token sequence leaves the compiled grammar and the rollback
horizon unchanged and appends exactly the sequence to the history. -/
theorem acceptTokens_history (ts : List Int) :
    ∀ m m2 : GrammarMatcherModel, acceptTokens m ts = some m2 →
      m2.compiled = m.compiled ∧ m2.max_rollback_tokens = m.max_rollback_tokens ∧
        m2.history = m.history ++ ts := by
  induction ts with
  | nil =>
      intro m m2 h
      injection h with h
      subst h
      exact ⟨rfl, rfl, by simp⟩
  | cons t ts ih =>
      intro m m2 h
      unfold acceptTokens at h
      cases hacc : m.AcceptToken t with
      | none => rw [hacc] at h; cases h
      | some m1 =>
          rw [hacc] at h
          obtain ⟨h1, h2, h3⟩ := ih m1 m2 h
          unfold GrammarMatcherModel.AcceptToken at hacc
          by_cases hok : m.compiled.acceptable m.history t
          · rw [if_pos hok] at hacc
            injection hacc with hm1
            subst hm1
            refine ⟨h1, h2, ?_⟩
            rw [h3]
            simp
          · rw [if_neg hok] at hacc
            cases hacc

/-- C5: accepting tokens t1..tn from a fresh or freshly reset matcher, with n
within the configured rollback horizon, and then rolling back n tokens yields
a matcher whose FillNextTokenBitmask output is bit-for-bit identical to that
of a freshly reset matcher over the same compiled grammar. -/
theorem rollback_inverse (m0 m1 m2 : GrammarMatcherModel) (ts : List Int)
    (hfresh : m0.history = [])
    (hacc : acceptTokens m0 ts = some m1)
    (hmax : ts.length ≤ m0.max_rollback_tokens)
    (hrb : m1.Rollback ts.length = some m2) :
    m2.FillNextTokenBitmask = (m1.Reset).FillNextTokenBitmask := by
  obtain ⟨hc, hm, hh⟩ := acceptTokens_history ts m0 m1 hacc
  rw [hfresh] at hh
  simp only [List.nil_append] at hh
  unfold GrammarMatcherModel.Rollback at hrb
  have hcond : ts.length ≤ m1.max_rollback_tokens ∧ ts.length ≤ m1.history.length := by
    refine ⟨?_, ?_⟩
    · rw [hm]; exact hmax
    · rw [hh]
  rw [if_pos hcond] at hrb
  injection hrb with hm2
  subst hm2
  unfold GrammarMatcherModel.FillNextTokenBitmask GrammarMatcherModel.Reset
  simp [hh]

/-- Witness for the rollback law at a concrete input: accept tokens 5 and 7
from a fresh matcher over the demo grammar, roll both back, and the bitmask
agrees with the reset matcher's. -/
theorem rollback_inverse_witness :
    demoRolled.FillNextTokenBitmask = (demoAfter.Reset).FillNextTokenBitmask :=
  rollback_inverse demoFresh demoAfter demoRolled [5, 7] rfl rfl (by decide) rfl
